import Mathlib

/-!
Verification development for the funcToForm library (`src/funcToForm.js`).

The source file holds two concatenated snapshots of the library; the later
snapshot (the one containing `Ostream`, `readForm` and the submit handler,
and the one every claim's line references point into) is the program that is
embedded here.  JavaScript numbers are modelled by `JSNum` (rationals plus
NaN and the two infinities); JavaScript strings by Lean `String`s; thrown
exceptions by `Except JsError`.  All definitions are executable.
-/

set_option autoImplicit false

deriving instance DecidableEq for Except

/-! ## JavaScript errors

`InputError` (defined in the source) is an `Error` subclass with
`name = "InputError"`.  The `isInput` flag models the `instanceof InputError`
test used by `readFormItem`; `name`/`message` model the fields used by
`Error.prototype.toString`. -/

structure JsError where
  isInput : Bool
  name : String
  message : String
deriving DecidableEq, Repr

/-- Models `new InputError(msg)`. -/
def mkInputError (msg : String) : JsError := ⟨true, "InputError", msg⟩

/-- Models `new Error(msg)`. -/
def mkError (msg : String) : JsError := ⟨false, "Error", msg⟩

/-- Models `Error.prototype.toString`: `name`, then `": "`, then `message`,
omitting the pieces that are empty. -/
def jsErrToString (e : JsError) : String :=
  if e.name = "" then e.message
  else if e.message = "" then e.name
  else e.name ++ ": " ++ e.message

/-! ## JavaScript numbers

JavaScript numbers are IEEE-754 doubles.  The embedding uses exact rationals
together with NaN and the infinities; on the small literals appearing in the
program and in this file, rational and double arithmetic agree. -/

inductive JSNum where
  | nan
  | inf
  | ninf
  | num (q : Rat)
deriving DecidableEq, Repr

/-- JavaScript unary minus on numbers. -/
def jsNeg : JSNum → JSNum
  | .nan => .nan
  | .inf => .ninf
  | .ninf => .inf
  | .num q => .num (-q)

/-- JavaScript `<` on two numbers (`NaN` compares false to everything). -/
def jsLt : JSNum → JSNum → Bool
  | .nan, _ => false
  | _, .nan => false
  | .ninf, .ninf => false
  | .ninf, _ => true
  | _, .ninf => false
  | .inf, _ => false
  | .num _, .inf => true
  | .num a, .num b => decide (a < b)

/-- JavaScript `>=` on two numbers (`NaN` compares false to everything). -/
def jsGe : JSNum → JSNum → Bool
  | .nan, _ => false
  | _, .nan => false
  | .inf, _ => true
  | _, .inf => false
  | .ninf, .ninf => true
  | .ninf, _ => false
  | .num _, .ninf => true
  | .num a, .num b => decide (b ≤ a)

/-- JavaScript `/` on two numbers.  The model has no negative zero, so the
sign of a zero result is not tracked. -/
def jsDiv : JSNum → JSNum → JSNum
  | .nan, _ => .nan
  | _, .nan => .nan
  | .inf, .inf => .nan
  | .inf, .ninf => .nan
  | .ninf, .inf => .nan
  | .ninf, .ninf => .nan
  | .inf, .num b => if b < 0 then .ninf else .inf
  | .ninf, .num b => if b < 0 then .inf else .ninf
  | .num _, .inf => .num 0
  | .num _, .ninf => .num 0
  | .num a, .num b =>
      if b = 0 then (if a = 0 then .nan else if 0 < a then .inf else .ninf)
      else .num (a / b)

/-! ### Printing numbers

`jsNumToStr` models string coercion (`'' + x`) of a number.  It is exact on
NaN, the infinities, integers and terminating decimals of moderate size;
rationals with a non-terminating decimal expansion cannot arise from a
double, and for them the model prints `num/den`. -/

/-- Decimal rendering of a rational, as JavaScript renders the corresponding
double. -/
def ratToStr (q : Rat) : String :=
  if q.den = 1 then toString q.num
  else
    match (List.range (q.den + 1)).find? (fun e => (q * (10 : Rat) ^ e).den = 1) with
    | some e =>
        let m := (q * (10 : Rat) ^ e).num
        let sign := if m < 0 then "-" else ""
        let ds := toString m.natAbs
        let ds := if ds.length ≤ e then String.mk (List.replicate (e + 1 - ds.length) '0') ++ ds else ds
        let k := ds.length - e
        sign ++ String.mk (ds.toList.take k) ++ "." ++ String.mk (ds.toList.drop k)
    | none => toString q.num ++ "/" ++ toString q.den

/-- Models JavaScript string coercion of a number. -/
def jsNumToStr : JSNum → String
  | .nan => "NaN"
  | .inf => "Infinity"
  | .ninf => "-Infinity"
  | .num q => ratToStr q

/-! ### Parsing numbers

`jsToNumber` models the `ToNumber` coercion applied to a string (as used by
the global `isNaN`); `jsParseFloat` models `parseFloat`.  The modelled
grammar is the decimal one (optional sign, digits, fraction, exponent, and
`Infinity`); the hexadecimal/octal/binary literal forms accepted by
`ToNumber` are outside the modelled fragment.  The key difference between
the two functions is faithfully kept: `ToNumber` maps the empty (or
whitespace-only) string to `0` and requires the whole string to parse, while
`parseFloat` parses a longest prefix and yields `NaN` on the empty string. -/

/-- The characters treated as whitespace by `String.prototype.trim`. -/
def jsWhitespace (c : Char) : Bool := c.isWhitespace

/-- Models `String.prototype.trim`. -/
def jsTrim (s : String) : String :=
  String.mk (((s.toList.dropWhile jsWhitespace).reverse.dropWhile jsWhitespace).reverse)

/-- Leading run of decimal digits, and the rest. -/
def spanDigits (cs : List Char) : List Char × List Char :=
  (cs.takeWhile Char.isDigit, cs.dropWhile Char.isDigit)

/-- Numeric value of a run of decimal digits. -/
def digitsToNat (ds : List Char) : Nat :=
  ds.foldl (fun a c => a * 10 + (c.toNat - 48)) 0

/-- Scale a mantissa by a signed power of ten. -/
def applyExp (m : Rat) (e : Int) : Rat :=
  if 0 ≤ e then m * (10 : Rat) ^ e.toNat else m / (10 : Rat) ^ (-e).toNat

/-- Parse an optional exponent part (`e`/`E`, optional sign, digits) after a
mantissa; if the exponent is malformed it is not consumed. -/
def parseExpPart (mant : Rat) (cs : List Char) : Rat × List Char :=
  match cs with
  | c :: rest =>
      if c = 'e' ∨ c = 'E' then
        let sr : Int × List Char :=
          match rest with
          | '+' :: r => (1, r)
          | '-' :: r => (-1, r)
          | _ => (1, rest)
        let ed := spanDigits sr.2
        if ed.1.isEmpty then (mant, cs)
        else (applyExp mant (sr.1 * (digitsToNat ed.1 : Int)), ed.2)
      else (mant, cs)
  | [] => (mant, [])

/-- Parse an unsigned decimal literal (or `Infinity`) prefix; returns the
value and the unconsumed rest, or `none` when no prefix parses. -/
def parseUnsignedDec (cs : List Char) : Option (JSNum × List Char) :=
  if cs.take 8 = "Infinity".toList then some (.inf, cs.drop 8)
  else
    let ip := spanDigits cs
    match ip.2 with
    | '.' :: r2 =>
        let fp := spanDigits r2
        if ip.1.isEmpty && fp.1.isEmpty then none
        else
          let mant : Rat := (digitsToNat ip.1 : Rat) + (digitsToNat fp.1 : Rat) / (10 : Rat) ^ fp.1.length
          let vr := parseExpPart mant fp.2
          some (.num vr.1, vr.2)
    | _ =>
        if ip.1.isEmpty then none
        else
          let vr := parseExpPart ((digitsToNat ip.1 : Rat)) ip.2
          some (.num vr.1, vr.2)

/-- Parse a signed decimal literal (or `Infinity`) prefix. -/
def parseSignedDec (cs : List Char) : Option (JSNum × List Char) :=
  match cs with
  | '+' :: r => parseUnsignedDec r
  | '-' :: r => (parseUnsignedDec r).map (fun vr => (jsNeg vr.1, vr.2))
  | _ => parseUnsignedDec cs

/-- Models `ToNumber` on a string: trim, map the empty string to `0`, and
require the whole remainder to be one signed decimal literal. -/
def jsToNumber (s : String) : JSNum :=
  let t := jsTrim s
  if t = "" then .num 0
  else
    match parseSignedDec t.toList with
    | some (v, []) => v
    | _ => .nan

/-- Models the global `isNaN` applied to a string. -/
def jsIsNaN (s : String) : Bool :=
  match jsToNumber s with
  | .nan => true
  | _ => false

/-- Models `parseFloat` on a string: longest signed-decimal prefix, `NaN`
when none (in particular on the empty string). -/
def jsParseFloat (s : String) : JSNum :=
  match parseSignedDec ((s.toList.dropWhile jsWhitespace)) with
  | some (v, _) => v
  | none => .nan

/-! ## JavaScript values -/

inductive Value where
  | null
  | undef
  | bool (b : Bool)
  | num (n : JSNum)
  | str (s : String)
deriving DecidableEq, Repr

/-- JavaScript truthiness of a value. -/
def jsTruthy : Value → Bool
  | .null => false
  | .undef => false
  | .bool b => b
  | .num .nan => false
  | .num (.num q) => if q = 0 then false else true
  | .num _ => true
  | .str s => if s = "" then false else true

/-- Truthiness of a submitted raw form value (`FormData.get` yields a string
or `null`, modelled by `Option String`). -/
def jsTruthyOptStr : Option String → Bool
  | none => false
  | some s => if s = "" then false else true

/-- Models string coercion (`'' + x`) of a value. -/
def jsValToStr : Value → String
  | .null => "null"
  | .undef => "undefined"
  | .bool b => if b then "true" else "false"
  | .num n => jsNumToStr n
  | .str s => s

/-! ## Converters and validators (source lines 222-276) -/

/-- The type of a converter: a function from the raw text to a typed value,
possibly throwing. -/
def Conv : Type := String → Except JsError Value

/-- The test made by `toInt`'s regular expression `^-?\d+$`. -/
def isIntStr (s : String) : Bool :=
  let cs :=
    match s.toList with
    | '-' :: rest => rest
    | cs => cs
  !cs.isEmpty && cs.all Char.isDigit

/-- Value of a string already known to match `^-?\d+$` (what `parseInt`
returns on it; the model is exact where doubles are). -/
def parseIntMatched (s : String) : Int :=
  match s.toList with
  | '-' :: rest => -(digitsToNat rest : Int)
  | cs => (digitsToNat cs : Int)

/-- Models `toInt` (source lines 222-230). -/
def toInt (s : String) : Except JsError JSNum :=
  let t := jsTrim s
  if isIntStr t then .ok (.num ((parseIntMatched t : Int) : Rat))
  else .error (mkInputError (t ++ " is not an integer"))

/-- Models `toFloatSingle` (source lines 232-240). -/
def toFloatSingle (s : String) : Except JsError JSNum :=
  let t := jsTrim s
  if jsIsNaN t then .error (mkInputError (t ++ " is not a number"))
  else .ok (jsParseFloat t)

/-- Models `String.prototype.split` with a one-character separator, on the
character list. -/
def jsSplitGo (sep : Char) : List Char → List (List Char)
  | [] => [[]]
  | c :: cs =>
      match jsSplitGo sep cs with
      | [] => [[]]
      | p :: ps => if c = sep then [] :: p :: ps else (c :: p) :: ps

/-- Models `s.split(sep)` for a one-character separator. -/
def jsSplit (s : String) (sep : Char) : List String :=
  (jsSplitGo sep s.toList).map String.mk

/-- Models `toFloat` (source lines 242-255). -/
def toFloat (s : String) : Except JsError JSNum :=
  let parts := jsSplit s '/'
  if 3 ≤ parts.length then .error (mkInputError (s ++ " has too many forward slashes"))
  else
    match parts with
    | [a, b] => (toInt a).bind (fun n => (toInt b).bind (fun d => .ok (jsDiv n d)))
    | _ => toFloatSingle s

/-- Models `assertGE` (source lines 257-264; this later snapshot returns `x`
on success, superseding the earlier variant that returned `undefined`).  The
source's message separator contains the mojibake bytes `â‰¥` (a doubly
encoded `≥`), kept verbatim. -/
def assertGE (thresh : JSNum) : JSNum → Except JsError JSNum :=
  fun x =>
    if jsLt x thresh then
      .error (mkInputError (jsNumToStr x ++ " should be â‰¥ " ++ jsNumToStr thresh))
    else .ok x

/-! ## Association-list helpers

`assocLookup`/`assocSet` model JavaScript object and `Map` access on string
keys (first match wins; setting overwrites in place or appends). -/

def assocLookup {α : Type} (k : String) : List (String × α) → Option α
  | [] => none
  | kv :: m => if kv.1 = k then some kv.2 else assocLookup k m

def assocSet {α : Type} (k : String) (v : α) : List (String × α) → List (String × α)
  | [] => [(k, v)]
  | kv :: m => if kv.1 = k then (k, v) :: m else kv :: assocSet k v m

/-! ## Widgets (source lines 280-387) -/

/-- The state of a `TextWidget` as its constructor (source lines 281-293)
leaves it.  `defVal` is any JavaScript value (`null` when absent); the
constructor's lines computing a fallback `defStr` are dead code, overwritten
by the final `this.defStr = defStr`. -/
structure TextWidget where
  converter : Option Conv
  defVal : Value
  defStr : Option String
  required : Bool
  type : String

/-- Models `new TextWidget(converter, required, defVal, defStr, type)`:
`required` is forced to `false` exactly when `defVal` is truthy. -/
def TextWidget.make (converter : Option Conv) (required : Bool) (defVal : Value)
    (defStr : Option String) (ty : String) : TextWidget :=
  ⟨converter, defVal, defStr, if jsTruthy defVal then false else required, ty⟩

/-- Models `TextWidget.read` (source lines 295-307); the message spelling
`"emtpy"` is the source's. -/
def TextWidget.read (w : TextWidget) (key : String) (value : Option String) :
    Except JsError Value :=
  if jsTruthyOptStr value then
    match w.converter with
    | none => .ok (.str (value.getD ""))
    | some c => c (value.getD "")
  else
    if w.required then .error (mkInputError ("emtpy value for " ++ key))
    else .ok w.defVal

/-- The state of a `CheckBoxWidget` (source lines 325-344). -/
structure CheckBoxWidget where
  defVal : Value
deriving DecidableEq, Repr

/-- Models `CheckBoxWidget.read`: `Boolean(value)`, never throwing. -/
def CheckBoxWidget.read (_w : CheckBoxWidget) (_key : String) (value : Option String) :
    Except JsError Value :=
  .ok (.bool (jsTruthyOptStr value))

/-- A bare model of a created DOM element: its tag and attributes. -/
structure DomElem where
  tag : String
  attrs : List (String × String)
deriving DecidableEq, Repr

/-- Models `CheckBoxWidget.create` (source lines 334-343): the `checked`
attribute is set exactly when the default value is truthy. -/
def CheckBoxWidget.create (w : CheckBoxWidget) (idPfx : String) : DomElem :=
  let base := [("id", idPfx ++ ".input"), ("type", "checkbox"), ("name", idPfx)]
  ⟨"input", if jsTruthy w.defVal then base ++ [("checked", "checked")] else base⟩

/-- One option of a `SelectWidget` (source lines 346-352). -/
structure SelectOption where
  name : String
  value : Value
  text : String
deriving DecidableEq, Repr

/-- Models `new SelectOption(name, value, text)` with its `null` defaults. -/
def SelectOption.make (name : String) (value : Option Value) (text : Option String) :
    SelectOption :=
  ⟨name, value.getD (.str name), text.getD name⟩

/-- The state of a constructed `SelectWidget` (source lines 354-365). -/
structure SelectWidget where
  options : List SelectOption
  defName : Option String
  nameToValue : List (String × Value)
deriving DecidableEq, Repr

/-- First name in the list already seen before it (the JavaScript loops build
a `Set`/`Map` of seen names and throw at the first repeat). -/
def firstDup (seen : List String) : List String → Option String
  | [] => none
  | n :: ns => if n ∈ seen then some n else firstDup (n :: seen) ns

/-- Models `new SelectWidget(options, defName)`: throws on a duplicated
option name, else records the name-to-value map in declaration order. -/
def SelectWidget.make (options : List SelectOption) (defName : Option String) :
    Except JsError SelectWidget :=
  match firstDup [] (options.map SelectOption.name) with
  | some n => .error (mkError ("Select option " ++ n ++ " already used"))
  | none => .ok ⟨options, defName, options.map (fun o => (o.name, o.value))⟩

/-- Models `SelectWidget.read`: `this.nameToValue.get(value)`, which is
`undefined` when the submitted value is absent or not an option name. -/
def SelectWidget.read (w : SelectWidget) (_key : String) (value : Option String) :
    Except JsError Value :=
  .ok (match value with
       | none => .undef
       | some s => (assocLookup s w.nameToValue).getD .undef)

/-- The closed set of widget kinds, with dispatch on `read`. -/
inductive Widget where
  | text (w : TextWidget)
  | checkBox (w : CheckBoxWidget)
  | select (w : SelectWidget)

/-- Dispatches `widget.read(key, value)` to the widget's class. -/
def Widget.read : Widget → String → Option String → Except JsError Value
  | .text w, key, value => TextWidget.read w key value
  | .checkBox w, key, value => CheckBoxWidget.read w key value
  | .select w, key, value => SelectWidget.read w key value

/-! ## Params and ParamGroups (source lines 389-423) -/

/-- Models `isValidParamName` (source lines 389-392): the regular-expression
check is commented out and the function returns `true`. -/
def isValidParamName (_s : String) : Bool := true

/-- A `Param` (source lines 394-404). -/
structure Param where
  name : String
  widget : Widget
  label : String
  description : Option String

/-- Models `new Param(name, widget, label, description)`; the name-validity
throw is unreachable because `isValidParamName` returns `true`. -/
def Param.make (name : String) (widget : Widget) (label : Option String)
    (description : Option String) : Except JsError Param :=
  if isValidParamName name = false then .error (mkError ("Invalid parameter name " ++ name))
  else .ok ⟨name, widget, label.getD name, description⟩

/-- A constructed `ParamGroup` (source lines 406-423). -/
structure ParamGroup where
  name : String
  paramList : List Param
  converter : Option Conv
  description : Option String

/-- Models `new ParamGroup(name, paramList, converter, description)`:
throws at construction on a duplicated `Param` name. -/
def ParamGroup.make (name : String) (paramList : List Param) (converter : Option Conv)
    (description : Option String) : Except JsError ParamGroup :=
  if isValidParamName name = false then .error (mkError ("Invalid parameter name " ++ name))
  else
    match firstDup [] (paramList.map Param.name) with
    | some n => .error (mkError ("Parameter name " ++ n ++ " already used"))
    | none => .ok ⟨name, paramList, converter, description⟩

/-! ## The output stream (source lines 479-539) -/

/-- One lane container appended to the stream element. -/
structure Lane where
  tagName : String
  usesSvgNS : Bool
  classes : List String
  attrs : List (String × String)
  children : List String
deriving DecidableEq, Repr

/-- The mutable state of an `Ostream`: the lane containers inside the stream
element in document order, and the current lane name (`this.laneName`); the
current lane element is the last container whenever the name is set. -/
structure OstreamState where
  lanes : List Lane
  laneName : Option String
deriving DecidableEq, Repr

/-- Models the global `laneNameToType` of the later snapshot
(source line 211). -/
def laneNameToType : List (String × String) :=
  [("log", "div"), ("break", "div"), ("svg", "svg")]

/-- The fresh lane container `setLane` builds: `createElementNS` for `svg`,
`createElement` otherwise, one class `f2f-lane-<name>`, then the supplied
attributes applied via `setAttribute` in order. -/
def mkLane (nm ty : String) (attrs : Option (List (String × String))) : Lane :=
  { tagName := ty
    usesSvgNS := nm == "svg"
    classes := ["f2f-lane-" ++ nm]
    attrs := (attrs.getD []).foldl (fun m kv => assocSet kv.1 kv.2 m) []
    children := [] }

/-- Models `Ostream.setLane` (source lines 491-515).  Returns the new state
and `.error` for the `throw` on an invalid lane name (in which case the
state is untouched: the source throws before mutating). -/
def Ostream.setLane (st : OstreamState) (nm : String)
    (attrs : Option (List (String × String))) : OstreamState × Except JsError Unit :=
  if st.laneName = some nm then (st, .ok ())
  else
    match assocLookup nm laneNameToType with
    | some ty =>
        ({ lanes := st.lanes ++ [mkLane nm ty attrs], laneName := some nm }, .ok ())
    | none => (st, .error (mkError ("invalid lane name " ++ nm)))

/-- Append a child to the current (last) lane container. -/
def appendToLast (child : String) : List Lane → List Lane
  | [] => []
  | [l] => [{ l with children := l.children ++ [child] }]
  | l :: ls => l :: appendToLast child ls

/-- Models `Ostream.log` (source lines 517-524): ensure the `log` lane, then
append one line whose text joins the string forms of the arguments. -/
def Ostream.log (st : OstreamState) (args : List Value) : OstreamState :=
  let st := (Ostream.setLane st "log" none).1
  { st with lanes := appendToLast (String.intercalate " " (args.map jsValToStr)) st.lanes }

/-- Models `Ostream.addBreak` (source lines 526-528). -/
def Ostream.addBreak (st : OstreamState) : OstreamState :=
  (Ostream.setLane st "break" none).1

/-! ## The form engine (source lines 541-626) -/

/-- Submitted form data: ordered key/value pairs; `get` models
`FormData.get`, which is `null` (here `none`) for an absent key. -/
structure FormData where
  entries : List (String × String)
deriving DecidableEq, Repr

def FormData.get (fd : FormData) (key : String) : Option String :=
  assocLookup key fd.entries

/-- The per-field error displays: each `<key>.errors` element's id mapped to
the list of error messages currently shown inside it.  `createFormItem`
(source lines 471-474) creates one such element per `Param`. -/
abbrev ErrMap : Type := List (String × List String)

/-- Whether the document has an errors element with this id
(`document.getElementById(id)` is non-null). -/
def errHas (id : String) (m : ErrMap) : Bool :=
  (assocLookup id m).isSome

/-- Models `errorsElem.innerHTML = ''` on the element with this id. -/
def errClear (id : String) : ErrMap → ErrMap :=
  List.map (fun kv => if kv.1 = id then (kv.1, ([] : List String)) else kv)

/-- Models appending one error `div` with this message to the element. -/
def errAppend (id : String) (msg : String) : ErrMap → ErrMap :=
  List.map (fun kv => if kv.1 = id then (kv.1, kv.2 ++ [msg]) else kv)

/-- Models `path.join('.')`. -/
def joinDots : List String → String
  | [] => ""
  | [x] => x
  | x :: xs => x ++ "." ++ joinDots xs

/-- The fully-qualified field key `path.join('.') + '.' + param.name`. -/
def itemKey (path : List String) (p : Param) : String :=
  joinDots path ++ "." ++ p.name

/-- The id of the field's error display, `key + '.errors'`. -/
def itemErrId (path : List String) (p : Param) : String :=
  itemKey path p ++ ".errors"

/-- The error displays `createForm` leaves in the document for a group: one
empty display per `Param`. -/
def initErrMap (pg : ParamGroup) : ErrMap :=
  pg.paramList.map (fun p => (itemErrId ["f2f." ++ pg.name] p, ([] : List String)))

/-- The combined result of reading: the error displays, the typed input
object built so far, and either a thrown error or the boolean status. -/
structure ReadOut where
  errs : ErrMap
  vals : List (String × Value)
  res : Except JsError Bool
deriving DecidableEq, Repr

/-- Models `readFormItem` (source lines 585-613): clear the field's error
display (when the element exists), read the widget, store the value on
success; an `InputError` (with the display present) is rendered there and
yields a `false` local status; any other error propagates. -/
def readFormItem (fd : FormData) (errs : ErrMap) (vals : List (String × Value))
    (param : Param) (path : List String) : ReadOut :=
  let key := itemKey path param
  let value := fd.get key
  let errId := key ++ ".errors"
  let present := errHas errId errs
  let errs := if present then errClear errId errs else errs
  match Widget.read param.widget key value with
  | .ok v => ⟨errs, assocSet param.name v vals, .ok true⟩
  | .error e =>
      if e.isInput && present then ⟨errAppend errId e.message errs, vals, .ok false⟩
      else ⟨errs, vals, .error e⟩

/-- The loop of `readForm` (source lines 619-624): read every `Param` in
order, a thrown error aborting the loop, a `false` local status clearing the
global status. -/
def readFormLoop (fd : FormData) (path : List String) :
    List Param → ErrMap → List (String × Value) → Bool → ReadOut
  | [], errs, vals, ok => ⟨errs, vals, .ok ok⟩
  | p :: ps, errs, vals, ok =>
      let r := readFormItem fd errs vals p path
      match r.res with
      | .ok localOk => readFormLoop fd path ps r.errs r.vals (ok && localOk)
      | .error e => ⟨r.errs, r.vals, .error e⟩

/-- Models `readForm` (source lines 615-626). -/
def readForm (pg : ParamGroup) (fd : FormData) (errs : ErrMap) : ReadOut :=
  readFormLoop fd ["f2f." ++ pg.name] pg.paramList errs [] true

/-- The user computation: receives the typed input object and the output
stream, mutates the stream, and returns a value or throws. -/
def Func : Type :=
  List (String × Value) → OstreamState → OstreamState × Except JsError Value

/-- The observable outcome of one submit-handler run: the field error
displays, the form error element's text, the output stream, and the error
escaping the handler, if any. -/
structure SubmitOut where
  errs : ErrMap
  formErr : String
  ostream : OstreamState
  thrown : Option JsError
deriving DecidableEq, Repr

/-- Models the submit handler installed by `createForm` (source lines
562-582): read the form; on a thrown read error the handler rethrows with
nothing else done; on status `false` nothing further happens; on status
`true` the computation runs in a `try`, a non-`undefined` return value is
logged, a thrown error is written to `formErrorElem` via `toString` and
rethrown, and the `finally` appends a break lane in every case. -/
def submitHandler (pg : ParamGroup) (errs0 : ErrMap) (formErr0 : String)
    (os0 : OstreamState) (fd : FormData) (func : Func) : SubmitOut :=
  let r := readForm pg fd errs0
  match r.res with
  | .error e => ⟨r.errs, formErr0, os0, some e⟩
  | .ok status =>
      if status then
        match func r.vals os0 with
        | (os1, .ok output) =>
            let os2 := if output = Value.undef then os1 else Ostream.log os1 [output]
            ⟨r.errs, formErr0, Ostream.addBreak os2, none⟩
        | (os1, .error e) =>
            ⟨r.errs, jsErrToString e, Ostream.addBreak os1, some e⟩
      else ⟨r.errs, formErr0, os0, none⟩

/-! ## The URL query synchronizer

Modelled from the spec: no URL-synchronization code (no `history`,
`location` or query-string handling) exists in the source under `src/`; the
spec's section 4.6 describes it, so the two definitions below follow the
spec's words rather than source code. -/

/-- Models JavaScript `String.prototype.startsWith`. -/
def strHasPfx (pre s : String) : Bool :=
  pre.toList.isPrefixOf s.toList

/-- Modelled from the spec: one merge step of reconciliation — a submitted
key/value pair is set in the mapping when its value is non-empty, else
skipped. -/
def urlStep (m : List (String × String)) (kv : String × String) : List (String × String) :=
  if kv.2 ≠ "" then assocSet kv.1 kv.2 m else m

/-- Modelled from the spec: `reconcile(submittedFormData,
formQualifiedPrefix)` of section 4.6 — parse the current query string into a
mapping, remove every key that starts with the form's qualified prefix, then
set every submitted key whose value is non-empty; keys outside the form's
namespace pass through untouched. -/
def reconcile (url : List (String × String)) (fd : FormData) (nsp : String) :
    List (String × String) :=
  let kept := url.filter (fun kv => !(strHasPfx nsp kv.1))
  fd.entries.foldl urlStep kept

/-- Modelled from the spec: the submit-time address-bar update of sections
4.4 and 4.6 — on any submission whose read succeeds (status `true`) the
address bar is reconciled with the submitted data; on a validation failure
(or a read that throws) it is untouched. -/
def submitUrlAfter (pg : ParamGroup) (errs : ErrMap) (fd : FormData)
    (url : List (String × String)) : List (String × String) :=
  match (readForm pg fd errs).res with
  | .ok true => reconcile url fd ("f2f." ++ pg.name)
  | _ => url

/-! ## Helper lemmas -/

theorem jsGe_imp_not_lt {x t : JSNum} (h : jsGe x t = true) : jsLt x t = false := by
  cases x <;> cases t <;> simp_all [jsGe, jsLt]

theorem assocLookup_set_self {α : Type} (k : String) (v : α) (m : List (String × α)) :
    assocLookup k (assocSet k v m) = some v := by
  induction m with
  | nil => simp [assocSet, assocLookup]
  | cons kv m ih =>
      by_cases h : kv.1 = k
      · simp [assocSet, assocLookup, h]
      · simp [assocSet, assocLookup, h, ih]

theorem assocLookup_set_ne {α : Type} {k k' : String} (h : k' ≠ k) (v : α)
    (m : List (String × α)) : assocLookup k' (assocSet k v m) = assocLookup k' m := by
  have hk : k ≠ k' := fun hh => h hh.symm
  induction m with
  | nil => simp [assocSet, assocLookup, hk]
  | cons kv m ih =>
      by_cases hkv : kv.1 = k
      · subst hkv
        simp [assocSet, assocLookup, hk]
      · by_cases hkv' : kv.1 = k' <;> simp [assocSet, assocLookup, hkv, hkv', ih, h]

theorem errClear_lookup (i j : String) (m : ErrMap) :
    assocLookup i (errClear j m) =
      (assocLookup i m).map (fun l => if i = j then ([] : List String) else l) := by
  induction m with
  | nil => rfl
  | cons kv m ih =>
      by_cases hj : kv.1 = j <;> by_cases hi : kv.1 = i <;>
        simp_all [errClear, assocLookup]

theorem errAppend_lookup (i j msg : String) (m : ErrMap) :
    assocLookup i (errAppend j msg m) =
      (assocLookup i m).map (fun l => if i = j then l ++ [msg] else l) := by
  induction m with
  | nil => rfl
  | cons kv m ih =>
      by_cases hj : kv.1 = j <;> by_cases hi : kv.1 = i <;>
        simp_all [errAppend, assocLookup]

theorem errHas_clear (i j : String) (m : ErrMap) : errHas i (errClear j m) = errHas i m := by
  simp [errHas, errClear_lookup]

theorem errHas_append (i j msg : String) (m : ErrMap) :
    errHas i (errAppend j msg m) = errHas i m := by
  simp [errHas, errAppend_lookup]

theorem assocLookup_clear_self (i : String) (m : ErrMap) (h : errHas i m = true) :
    assocLookup i (errClear i m) = some [] := by
  rw [errClear_lookup]
  rcases ho : assocLookup i m with _ | l
  · rw [errHas, ho] at h
    simp at h
  · simp

theorem assocLookup_clear_ne {i j : String} (h : i ≠ j) (m : ErrMap) :
    assocLookup i (errClear j m) = assocLookup i m := by
  rw [errClear_lookup]
  rcases assocLookup i m with _ | l <;> simp [h]

theorem assocLookup_append_self (i msg : String) {m : ErrMap} {l : List String}
    (h : assocLookup i m = some l) :
    assocLookup i (errAppend i msg m) = some (l ++ [msg]) := by
  rw [errAppend_lookup, h]
  simp

theorem assocLookup_append_ne {i j : String} (h : i ≠ j) (msg : String) (m : ErrMap) :
    assocLookup i (errAppend j msg m) = assocLookup i m := by
  rw [errAppend_lookup]
  rcases assocLookup i m with _ | l <;> simp [h]

theorem jsSplitGo_ne_nil (sep : Char) (cs : List Char) : jsSplitGo sep cs ≠ [] := by
  induction cs with
  | nil => simp [jsSplitGo]
  | cons c cs ih =>
      cases h : jsSplitGo sep cs with
      | nil => exact absurd h ih
      | cons p ps =>
          simp only [jsSplitGo, h]
          by_cases hc : c = sep <;> simp [hc]

theorem jsSplitGo_length (sep : Char) (cs : List Char) :
    (jsSplitGo sep cs).length = cs.count sep + 1 := by
  induction cs with
  | nil => simp [jsSplitGo]
  | cons c cs ih =>
      cases h : jsSplitGo sep cs with
      | nil => exact absurd h (jsSplitGo_ne_nil sep cs)
      | cons p ps =>
          rw [h] at ih
          simp only [jsSplitGo, h, List.count_cons]
          by_cases hc : c = sep <;> simp_all

theorem jsSplit_length (s : String) (sep : Char) :
    (jsSplit s sep).length = s.toList.count sep + 1 := by
  simp [jsSplit, jsSplitGo_length]

theorem firstDup_none {ns : List String} :
    ∀ seen, firstDup seen ns = none → ns.Nodup ∧ ∀ n ∈ ns, n ∉ seen := by
  induction ns with
  | nil => simp
  | cons n ns ih =>
      intro seen h
      simp only [firstDup] at h
      by_cases hn : n ∈ seen
      · simp [hn] at h
      · rw [if_neg hn] at h
        obtain ⟨hnd, hmem⟩ := ih (n :: seen) h
        refine ⟨List.nodup_cons.mpr ⟨fun hc => ?_, hnd⟩, ?_⟩
        · exact (hmem n hc) (List.mem_cons_self n seen)
        · intro m hm
          rcases List.mem_cons.mp hm with rfl | hm'
          · exact hn
          · exact fun hc => (hmem m hm') (List.mem_cons_of_mem _ hc)

/-! ### Lemmas on reading one form item -/

/-- The widget read made for a `Param` during `readFormItem`. -/
def widRead (fd : FormData) (path : List String) (p : Param) : Except JsError Value :=
  Widget.read p.widget (itemKey path p) (fd.get (itemKey path p))

/-- Whether the widget read of this `Param` succeeds. -/
def readOkB (fd : FormData) (path : List String) (p : Param) : Bool :=
  match widRead fd path p with
  | .ok _ => true
  | .error _ => false

/-- Whether the widget read of this `Param` succeeds or fails with a
validation (`InputError`) failure. -/
def readInputOrOkB (fd : FormData) (path : List String) (p : Param) : Bool :=
  match widRead fd path p with
  | .ok _ => true
  | .error e => e.isInput

theorem readFormItem_ok {fd : FormData} {errs : ErrMap} {p : Param} {path : List String}
    {v : Value} (vals : List (String × Value))
    (hpres : errHas (itemErrId path p) errs = true)
    (hw : widRead fd path p = .ok v) :
    readFormItem fd errs vals p path =
      ⟨errClear (itemErrId path p) errs, assocSet p.name v vals, .ok true⟩ := by
  simp only [widRead] at hw
  simp only [readFormItem, itemErrId] at hpres ⊢
  rw [hw, hpres]
  simp

theorem readFormItem_inputErr {fd : FormData} {errs : ErrMap} {p : Param} {path : List String}
    {e : JsError} (vals : List (String × Value))
    (hpres : errHas (itemErrId path p) errs = true)
    (hw : widRead fd path p = .error e) (hi : e.isInput = true) :
    readFormItem fd errs vals p path =
      ⟨errAppend (itemErrId path p) e.message (errClear (itemErrId path p) errs), vals,
        .ok false⟩ := by
  simp only [widRead] at hw
  simp only [readFormItem, itemErrId] at hpres ⊢
  rw [hw, hpres]
  simp [hi, hpres]

theorem readFormItem_fatal_res {fd : FormData} {p : Param} {path : List String} {e : JsError}
    (errs : ErrMap) (vals : List (String × Value))
    (hw : widRead fd path p = .error e) (hi : e.isInput = false) :
    (readFormItem fd errs vals p path).res = .error e := by
  simp only [widRead] at hw
  simp only [readFormItem]
  rw [hw]
  by_cases hp : errHas (itemKey path p ++ ".errors") errs <;> simp [hp, hi]

theorem readFormItem_errHas (fd : FormData) (errs : ErrMap) (vals : List (String × Value))
    (p : Param) (path : List String) (i : String) :
    errHas i (readFormItem fd errs vals p path).errs = errHas i errs := by
  simp only [readFormItem]
  cases hw : Widget.read p.widget (itemKey path p) (fd.get (itemKey path p)) with
  | ok v =>
      by_cases hp : errHas (itemKey path p ++ ".errors") errs <;> simp [hp, errHas_clear]
  | error e =>
      by_cases hp : errHas (itemKey path p ++ ".errors") errs <;>
        cases hi : e.isInput <;> simp [hp, hi, errHas_clear, errHas_append]

theorem readFormItem_frame_err {fd : FormData} {errs : ErrMap} {vals : List (String × Value)}
    {p : Param} {path : List String} {i : String} (hne : itemErrId path p ≠ i) :
    assocLookup i (readFormItem fd errs vals p path).errs = assocLookup i errs := by
  have hne' : i ≠ itemKey path p ++ ".errors" := fun hh => hne hh.symm
  simp only [readFormItem]
  cases hw : Widget.read p.widget (itemKey path p) (fd.get (itemKey path p)) with
  | ok v =>
      by_cases hp : errHas (itemKey path p ++ ".errors") errs <;>
        simp [hp, assocLookup_clear_ne hne']
  | error e =>
      by_cases hp : errHas (itemKey path p ++ ".errors") errs <;>
        cases hi : e.isInput <;>
          simp [hp, hi, assocLookup_clear_ne hne', assocLookup_append_ne hne']

theorem readFormItem_frame_vals {fd : FormData} {errs : ErrMap} {vals : List (String × Value)}
    {p : Param} {path : List String} {n : String} (hne : p.name ≠ n) :
    assocLookup n (readFormItem fd errs vals p path).vals = assocLookup n vals := by
  have hne' : n ≠ p.name := fun hh => hne hh.symm
  simp only [readFormItem]
  cases hw : Widget.read p.widget (itemKey path p) (fd.get (itemKey path p)) with
  | ok v =>
      by_cases hp : errHas (itemKey path p ++ ".errors") errs <;>
        simp [hp, assocLookup_set_ne hne']
  | error e =>
      by_cases hp : errHas (itemKey path p ++ ".errors") errs <;>
        cases hi : e.isInput <;> simp [hp, hi]

/-! ### Lemmas on the read loop -/

theorem readFormLoop_errHas (fd : FormData) (path : List String) :
    ∀ (ps : List Param) (errs : ErrMap) (vals : List (String × Value)) (ok : Bool) (i : String),
      errHas i (readFormLoop fd path ps errs vals ok).errs = errHas i errs := by
  intro ps
  induction ps with
  | nil => intro errs vals ok i; rfl
  | cons p ps ih =>
      intro errs vals ok i
      simp only [readFormLoop]
      cases hr : (readFormItem fd errs vals p path).res with
      | ok localOk =>
          rw [ih]
          exact readFormItem_errHas fd errs vals p path i
      | error e =>
          exact readFormItem_errHas fd errs vals p path i

theorem readFormLoop_frame_err (fd : FormData) (path : List String) :
    ∀ (ps : List Param) (errs : ErrMap) (vals : List (String × Value)) (ok : Bool) (i : String),
      (∀ q ∈ ps, itemErrId path q ≠ i) →
      assocLookup i (readFormLoop fd path ps errs vals ok).errs = assocLookup i errs := by
  intro ps
  induction ps with
  | nil => intro errs vals ok i _; rfl
  | cons p ps ih =>
      intro errs vals ok i hne
      simp only [readFormLoop]
      cases hr : (readFormItem fd errs vals p path).res with
      | ok localOk =>
          rw [ih _ _ _ _ (fun q hq => hne q (List.mem_cons_of_mem _ hq))]
          exact readFormItem_frame_err (hne p (List.mem_cons_self p ps))
      | error e =>
          exact readFormItem_frame_err (hne p (List.mem_cons_self p ps))

theorem readFormLoop_frame_vals (fd : FormData) (path : List String) :
    ∀ (ps : List Param) (errs : ErrMap) (vals : List (String × Value)) (ok : Bool) (n : String),
      (∀ q ∈ ps, q.name ≠ n) →
      assocLookup n (readFormLoop fd path ps errs vals ok).vals = assocLookup n vals := by
  intro ps
  induction ps with
  | nil => intro errs vals ok n _; rfl
  | cons p ps ih =>
      intro errs vals ok n hne
      simp only [readFormLoop]
      cases hr : (readFormItem fd errs vals p path).res with
      | ok localOk =>
          rw [ih _ _ _ _ (fun q hq => hne q (List.mem_cons_of_mem _ hq))]
          exact readFormItem_frame_vals (hne p (List.mem_cons_self p ps))
      | error e =>
          exact readFormItem_frame_vals (hne p (List.mem_cons_self p ps))

theorem readFormLoop_allInput (fd : FormData) (path : List String) :
    ∀ (ps : List Param) (errs : ErrMap) (vals : List (String × Value)) (ok : Bool),
      (∀ p ∈ ps, errHas (itemErrId path p) errs = true) →
      (∀ p ∈ ps, readInputOrOkB fd path p = true) →
      (ps.map (itemErrId path)).Nodup →
      (ps.map Param.name).Nodup →
      (readFormLoop fd path ps errs vals ok).res = .ok (ok && ps.all (readOkB fd path))
      ∧ (∀ p ∈ ps, ∀ v, widRead fd path p = .ok v →
          assocLookup p.name (readFormLoop fd path ps errs vals ok).vals = some v)
      ∧ (∀ p ∈ ps, ∀ e, widRead fd path p = .error e →
          assocLookup (itemErrId path p) (readFormLoop fd path ps errs vals ok).errs
            = some [e.message]) := by
  intro ps
  induction ps with
  | nil =>
      intro errs vals ok _ _ _ _
      refine ⟨by simp [readFormLoop], by simp, by simp⟩
  | cons p ps ih =>
      intro errs vals ok hpres hio hnd1 hnd2
      have hpresp : errHas (itemErrId path p) errs = true :=
        hpres p (List.mem_cons_self p ps)
      have hnd1' := (List.nodup_cons.mp hnd1).2
      have hnd2' := (List.nodup_cons.mp hnd2).2
      have hid_notin : ∀ q ∈ ps, itemErrId path q ≠ itemErrId path p := by
        intro q hq hc
        exact (List.nodup_cons.mp hnd1).1 (hc ▸ List.mem_map_of_mem (itemErrId path) hq)
      have hname_notin : ∀ q ∈ ps, q.name ≠ p.name := by
        intro q hq hc
        exact (List.nodup_cons.mp hnd2).1 (hc ▸ List.mem_map_of_mem Param.name hq)
      cases hw : widRead fd path p with
      | ok v =>
          have hitem := readFormItem_ok vals hpresp hw
          have hpres' : ∀ q ∈ ps, errHas (itemErrId path q) (errClear (itemErrId path p) errs) = true := by
            intro q hq
            rw [errHas_clear]
            exact hpres q (List.mem_cons_of_mem _ hq)
          obtain ⟨ihres, ihvals, iherrs⟩ :=
            ih (errClear (itemErrId path p) errs) (assocSet p.name v vals) (ok && true)
              hpres' (fun q hq => hio q (List.mem_cons_of_mem _ hq)) hnd1' hnd2'
          simp only [readFormLoop, hitem]
          refine ⟨?_, ?_, ?_⟩
          · rw [ihres]
            simp [List.all_cons, readOkB, hw, Bool.and_assoc]
          · intro q hq v' hv'
            rcases List.mem_cons.mp hq with rfl | hq'
            · rw [hw] at hv'
              cases hv'
              rw [readFormLoop_frame_vals fd path ps _ _ _ _ hname_notin]
              exact assocLookup_set_self q.name v vals
            · exact ihvals q hq' v' hv'
          · intro q hq e' he'
            rcases List.mem_cons.mp hq with rfl | hq'
            · rw [hw] at he'
              cases he'
            · exact iherrs q hq' e' he'
      | error e =>
          have hi : e.isInput = true := by
            have hh := hio p (List.mem_cons_self p ps)
            simpa [readInputOrOkB, hw] using hh
          have hitem := readFormItem_inputErr vals hpresp hw hi
          have hpres' : ∀ q ∈ ps,
              errHas (itemErrId path q)
                (errAppend (itemErrId path p) e.message (errClear (itemErrId path p) errs))
                = true := by
            intro q hq
            rw [errHas_append, errHas_clear]
            exact hpres q (List.mem_cons_of_mem _ hq)
          obtain ⟨ihres, ihvals, iherrs⟩ :=
            ih (errAppend (itemErrId path p) e.message (errClear (itemErrId path p) errs))
              vals (ok && false)
              hpres' (fun q hq => hio q (List.mem_cons_of_mem _ hq)) hnd1' hnd2'
          simp only [readFormLoop, hitem]
          refine ⟨?_, ?_, ?_⟩
          · rw [ihres]
            simp [List.all_cons, readOkB, hw]
          · intro q hq v' hv'
            rcases List.mem_cons.mp hq with rfl | hq'
            · rw [hw] at hv'
              cases hv'
            · exact ihvals q hq' v' hv'
          · intro q hq e' he'
            rcases List.mem_cons.mp hq with rfl | hq'
            · rw [hw] at he'
              cases he'
              rw [readFormLoop_frame_err fd path ps _ _ _ _ hid_notin]
              exact assocLookup_append_self _ _ (assocLookup_clear_self _ _ hpresp)
            · exact iherrs q hq' e' he'

theorem readFormLoop_abort (fd : FormData) (path : List String) :
    ∀ (pre : List Param) (p : Param) (post : List Param) (errs : ErrMap)
      (vals : List (String × Value)) (ok : Bool) (e : JsError),
      (∀ q ∈ pre, errHas (itemErrId path q) errs = true) →
      (∀ q ∈ pre, readInputOrOkB fd path q = true) →
      widRead fd path p = .error e → e.isInput = false →
      (readFormLoop fd path (pre ++ p :: post) errs vals ok).res = .error e := by
  intro pre
  induction pre with
  | nil =>
      intro p post errs vals ok e _ _ hw hi
      simp only [List.nil_append, readFormLoop]
      rw [readFormItem_fatal_res errs vals hw hi]
  | cons q pre ih =>
      intro p post errs vals ok e hpres hio hw hi
      have hpresq : errHas (itemErrId path q) errs = true :=
        hpres q (List.mem_cons_self q pre)
      cases hwq : widRead fd path q with
      | ok v =>
          have hitem := readFormItem_ok vals hpresq hwq
          simp only [List.cons_append, readFormLoop, hitem]
          refine ih p post _ _ _ e ?_ ?_ hw hi
          · intro r hr
            rw [errHas_clear]
            exact hpres r (List.mem_cons_of_mem _ hr)
          · exact fun r hr => hio r (List.mem_cons_of_mem _ hr)
      | error eq =>
          have hiq : eq.isInput = true := by
            have hh := hio q (List.mem_cons_self q pre)
            simpa [readInputOrOkB, hwq] using hh
          have hitem := readFormItem_inputErr vals hpresq hwq hiq
          simp only [List.cons_append, readFormLoop, hitem]
          refine ih p post _ _ _ e ?_ ?_ hw hi
          · intro r hr
            rw [errHas_append, errHas_clear]
            exact hpres r (List.mem_cons_of_mem _ hr)
          · exact fun r hr => hio r (List.mem_cons_of_mem _ hr)

/-! ## Claims -/

set_option maxRecDepth 4000

/-- C4: for every input string, `toFloat` errors on two or more `/`
separators; with exactly one `/` it divides the integer parses of the parts
(`"6/3" = 2`, `"7/2" = 3.5`); otherwise it defers to `toFloatSingle`, which
fails on non-numeric text such as `"abc"` — but, diverging from the claim,
the empty (or whitespace-only) string is coerced to `0` by `isNaN`, so
`toFloat ""` returns `NaN` instead of failing. -/
theorem c4_toFloat_behavior :
    (∀ s : String, 2 ≤ s.toList.count '/' →
      toFloat s = .error (mkInputError (s ++ " has too many forward slashes")))
    ∧ (∀ s : String, s.toList.count '/' = 1 →
      ∃ a b, jsSplit s '/' = [a, b] ∧
        toFloat s = (toInt a).bind (fun n => (toInt b).bind (fun d => .ok (jsDiv n d))))
    ∧ (∀ s : String, s.toList.count '/' = 0 → toFloat s = toFloatSingle s)
    ∧ (∀ s : String, jsTrim s = "" → toFloatSingle s = .ok .nan)
    ∧ (∀ s : String, jsIsNaN (jsTrim s) = true →
      toFloatSingle s = .error (mkInputError (jsTrim s ++ " is not a number")))
    ∧ toFloat "6/3" = .ok (.num 2)
    ∧ toFloat "7/2" = .ok (.num (7 / 2))
    ∧ toFloat "abc" = .error (mkInputError "abc is not a number")
    ∧ toFloat "" = .ok .nan := by
  refine ⟨?_, ?_, ?_, ?_, ?_, ?_, ?_, ?_, ?_⟩
  · intro s h
    have hlen : 3 ≤ (jsSplit s '/').length := by
      rw [jsSplit_length]; omega
    simp only [toFloat]
    rw [if_pos hlen]
  · intro s h
    have hlen : (jsSplit s '/').length = 2 := by rw [jsSplit_length]; omega
    obtain ⟨a, b, hab⟩ := List.length_eq_two.mp hlen
    refine ⟨a, b, hab, ?_⟩
    simp [toFloat, hab]
  · intro s h
    have hlen : (jsSplit s '/').length = 1 := by rw [jsSplit_length]; omega
    obtain ⟨a, ha⟩ := List.length_eq_one.mp hlen
    simp [toFloat, ha]
  · intro s h
    simp only [toFloatSingle, h]
    decide
  · intro s h
    simp [toFloatSingle, h]
  · with_unfolding_all decide
  · with_unfolding_all decide
  · decide
  · decide

theorem c4_witness :
    toFloat "1/2/3" = .error (mkInputError "1/2/3 has too many forward slashes")
    ∧ (∃ a b, jsSplit "6/3" '/' = [a, b] ∧
        toFloat "6/3" = (toInt a).bind (fun n => (toInt b).bind (fun d => .ok (jsDiv n d))))
    ∧ toFloat "x" = toFloatSingle "x"
    ∧ toFloatSingle " " = .ok .nan
    ∧ toFloatSingle "abc" = .error (mkInputError "abc is not a number") := by
  refine ⟨c4_toFloat_behavior.1 "1/2/3" (by decide),
    c4_toFloat_behavior.2.1 "6/3" (by decide),
    c4_toFloat_behavior.2.2.1 "x" (by decide),
    c4_toFloat_behavior.2.2.2.1 " " (by decide),
    (c4_toFloat_behavior.2.2.2.2.1 "abc" (by decide)).trans (by decide)⟩

/-- C5: the guard returned by `assertGE(t)` passes `x` through unchanged
when `x >= t` and fails with a validation error naming the violated bound
when `x < t` (the message joins the two numbers with the source's literal
separator text). -/
theorem c5_assertGE_guard (t x : JSNum) :
    (jsGe x t = true → assertGE t x = .ok x)
    ∧ (jsLt x t = true → assertGE t x =
        .error (mkInputError (jsNumToStr x ++ " should be â‰¥ " ++ jsNumToStr t))) := by
  constructor
  · intro h
    simp [assertGE, jsGe_imp_not_lt h]
  · intro h
    simp [assertGE, h]

theorem c5_witness :
    assertGE (.num 0) (.num 5) = .ok (.num 5)
    ∧ assertGE (.num 0) (.num (-1)) = .error (mkInputError "-1 should be â‰¥ 0") := by
  refine ⟨(c5_assertGE_guard (.num 0) (.num 5)).1 (by decide), ?_⟩
  exact ((c5_assertGE_guard (.num 0) (.num (-1))).2 (by decide)).trans (by decide)

/-- C6: `TextWidget.read` applies the converter (or passes the raw string
through) on a non-empty value, fails for a required widget on an empty
value, and returns the default for a non-required one — but the failure
message the source produces is the misspelled `"emtpy value for "` followed
by the key, not the claim's `"empty value for "`. -/
theorem c6_textWidget_read (w : TextWidget) (key s : String) :
    (s ≠ "" → TextWidget.read w key (some s) =
      (match w.converter with
       | none => .ok (.str s)
       | some c => c s))
    ∧ (w.required = true → TextWidget.read w key none =
        .error (mkInputError ("emtpy value for " ++ key)))
    ∧ (w.required = true → TextWidget.read w key (some "") =
        .error (mkInputError ("emtpy value for " ++ key)))
    ∧ (w.required = false → TextWidget.read w key none = .ok w.defVal)
    ∧ (w.required = false → TextWidget.read w key (some "") = .ok w.defVal)
    ∧ TextWidget.read ⟨none, .null, none, true, "text"⟩ "k" none ≠
        .error (mkInputError "empty value for k")
    ∧ TextWidget.read ⟨none, .null, none, true, "text"⟩ "k" none =
        .error (mkInputError "emtpy value for k") := by
  refine ⟨?_, ?_, ?_, ?_, ?_, by decide, by decide⟩
  · intro h
    cases hc : w.converter <;> simp [TextWidget.read, jsTruthyOptStr, h, hc]
  · intro h
    simp [TextWidget.read, jsTruthyOptStr, h]
  · intro h
    simp [TextWidget.read, jsTruthyOptStr, h]
  · intro h
    simp [TextWidget.read, jsTruthyOptStr, h]
  · intro h
    simp [TextWidget.read, jsTruthyOptStr, h]

theorem c6_witness :
    TextWidget.read (TextWidget.make none true Value.null none "text") "k" (some "hi")
      = .ok (.str "hi")
    ∧ TextWidget.read (TextWidget.make none false (Value.str "d") none "text") "k" (some "")
      = .ok (.str "d") := by
  constructor
  · exact ((c6_textWidget_read (TextWidget.make none true Value.null none "text") "k" "hi").1
      (by decide)).trans (by decide)
  · exact (c6_textWidget_read (TextWidget.make none false (Value.str "d") none "text") "k"
      "").2.2.2.2.1 (by decide)

/-- C7 (amended): a `TextWidget` constructed with a *truthy* default value
is never required, whatever `required` argument was passed, and reading an
empty submission yields the default. -/
theorem c7_truthy_default_not_required (conv : Option Conv) (req : Bool) (defVal : Value)
    (defStr : Option String) (ty : String) (h : jsTruthy defVal = true) :
    (TextWidget.make conv req defVal defStr ty).required = false
    ∧ (∀ key, TextWidget.read (TextWidget.make conv req defVal defStr ty) key none = .ok defVal
      ∧ TextWidget.read (TextWidget.make conv req defVal defStr ty) key (some "") = .ok defVal) := by
  have hreq : (TextWidget.make conv req defVal defStr ty).required = false := by
    simp [TextWidget.make, h]
  refine ⟨hreq, fun key => ⟨?_, ?_⟩⟩ <;>
    simp [TextWidget.read, jsTruthyOptStr, TextWidget.make, h]

/-- C7: the claim as stated is false — the empty string is a present (non
null) default value, yet the constructed widget keeps `required = true`
(JavaScript truthiness of `''` is false) and an empty submission still
fails. -/
theorem c7_counterexample :
    (TextWidget.make none true (Value.str "") none "text").defVal ≠ Value.null
    ∧ (TextWidget.make none true (Value.str "") none "text").required = true
    ∧ TextWidget.read (TextWidget.make none true (Value.str "") none "text") "k" none
        = .error (mkInputError "emtpy value for k") := by decide

theorem c7_witness :
    (TextWidget.make none true (Value.str "d") none "text").required = false
    ∧ TextWidget.read (TextWidget.make none true (Value.str "d") none "text") "k" none
        = .ok (.str "d") := by
  refine ⟨(c7_truthy_default_not_required none true (.str "d") none "text" (by decide)).1, ?_⟩
  exact ((c7_truthy_default_not_required none true (.str "d") none "text" (by decide)).2 "k").1

/-- C8: a duplicated `Param` name makes the `ParamGroup` constructor throw,
and a duplicated option name makes the `SelectWidget` constructor throw —
both at construction time, before any form exists. -/
theorem c8_duplicate_names_fail_fast (name : String) (paramList : List Param)
    (conv : Option Conv) (desc : Option String) (opts : List SelectOption)
    (defName : Option String) :
    (¬ (paramList.map Param.name).Nodup →
      ∃ e, ParamGroup.make name paramList conv desc = .error e)
    ∧ (¬ (opts.map SelectOption.name).Nodup →
      ∃ e, SelectWidget.make opts defName = .error e) := by
  constructor
  · intro h
    cases hd : firstDup [] (paramList.map Param.name) with
    | none => exact absurd (firstDup_none [] hd).1 h
    | some n =>
        exact ⟨mkError ("Parameter name " ++ n ++ " already used"),
          by simp [ParamGroup.make, isValidParamName, hd]⟩
  · intro h
    cases hd : firstDup [] (opts.map SelectOption.name) with
    | none => exact absurd (firstDup_none [] hd).1 h
    | some n =>
        exact ⟨mkError ("Select option " ++ n ++ " already used"),
          by simp [SelectWidget.make, hd]⟩

theorem c8_witness :
    (∃ e, ParamGroup.make "g"
      [⟨"x", .checkBox ⟨.bool false⟩, "x", none⟩, ⟨"x", .checkBox ⟨.bool false⟩, "x", none⟩]
      none none = .error e)
    ∧ (∃ e, SelectWidget.make [⟨"o", .null, "o"⟩, ⟨"o", .null, "o"⟩] none = .error e) := by
  exact ⟨(c8_duplicate_names_fail_fast "g" _ none none [] none).1 (by decide),
    (c8_duplicate_names_fail_fast "g" [] none none
      [⟨"o", .null, "o"⟩, ⟨"o", .null, "o"⟩] none).2 (by decide)⟩

/-- C9: `setLane` is a no-op when the requested kind is the current lane;
for a different valid kind it appends one fresh container of the mapped
element type (with the supplied attributes) after all previous lane
containers and makes it current — so coming back to a kind after a
different one always opens a fresh container; an unknown kind throws, with
the state untouched. -/
theorem c9_setLane_transitions (st : OstreamState) (nm : String)
    (attrs : Option (List (String × String))) :
    (st.laneName = some nm → Ostream.setLane st nm attrs = (st, .ok ()))
    ∧ (∀ ty, st.laneName ≠ some nm → assocLookup nm laneNameToType = some ty →
        Ostream.setLane st nm attrs =
          ({ lanes := st.lanes ++ [mkLane nm ty attrs], laneName := some nm }, .ok ()))
    ∧ (st.laneName ≠ some nm → assocLookup nm laneNameToType = none →
        Ostream.setLane st nm attrs = (st, .error (mkError ("invalid lane name " ++ nm)))) := by
  refine ⟨?_, ?_, ?_⟩
  · intro h
    simp [Ostream.setLane, h]
  · intro ty h hty
    simp [Ostream.setLane, h, hty]
  · intro h hty
    simp [Ostream.setLane, h, hty]

theorem c9_witness :
    Ostream.setLane ⟨[], none⟩ "log" none =
      (⟨[mkLane "log" "div" none], some "log"⟩, .ok ())
    ∧ Ostream.setLane ⟨[mkLane "log" "div" none], some "log"⟩ "table" none =
      (⟨[mkLane "log" "div" none], some "log"⟩,
        .error (mkError "invalid lane name table"))
    ∧ Ostream.setLane ⟨[mkLane "log" "div" none], some "log"⟩ "log" none =
      (⟨[mkLane "log" "div" none], some "log"⟩, .ok ()) := by
  refine ⟨?_, ?_, ?_⟩
  · exact ((c9_setLane_transitions ⟨[], none⟩ "log" none).2.1 "div" (by decide)
      (by decide)).trans (by decide)
  · exact (c9_setLane_transitions ⟨[mkLane "log" "div" none], some "log"⟩ "table" none).2.2
      (by decide) (by decide)
  · exact (c9_setLane_transitions ⟨[mkLane "log" "div" none], some "log"⟩ "log" none).1 rfl

/-- C10: `CheckBoxWidget.read` returns exactly the boolean truthiness of the
submitted raw value (absent ⇒ `false`) and never throws, independently of
the configured default; the default only drives `create`, which pre-checks
the box exactly when the default is truthy. -/
theorem c10_checkbox_read_truthiness (w : CheckBoxWidget) (key pfx : String)
    (v : Option String) :
    CheckBoxWidget.read w key v = .ok (.bool (jsTruthyOptStr v))
    ∧ CheckBoxWidget.read ⟨.bool true⟩ key none = .ok (.bool false)
    ∧ (assocLookup "checked" (CheckBoxWidget.create w pfx).attrs).isSome = jsTruthy w.defVal := by
  refine ⟨rfl, rfl, ?_⟩
  cases hd : jsTruthy w.defVal <;> simp [CheckBoxWidget.create, hd, assocLookup]

/-- C1: during submission reading, with the per-field error displays present
(as `createForm` builds them) and field names unique (as the `ParamGroup`
constructor enforces): when every widget read either succeeds or fails with
an `InputError`, the read never aborts — every `Param` is processed, each
failing field's message is recorded in that field's display, each
succeeding field's value lands in the input object, and the status is
`true` exactly when all fields succeeded; a non-`InputError` raised by some
widget read propagates out as the result of the whole read; and when the
status is `false`, or the read threw, the submit handler invokes no
computation and leaves the form error and the output stream untouched. -/
theorem c1_read_localizes_validation_errors (pg : ParamGroup) (fd : FormData) (errs : ErrMap)
    (hE : ∀ p ∈ pg.paramList, errHas (itemErrId ["f2f." ++ pg.name] p) errs = true)
    (hnd1 : (pg.paramList.map (itemErrId ["f2f." ++ pg.name])).Nodup)
    (hnd2 : (pg.paramList.map Param.name).Nodup) :
    ((∀ p ∈ pg.paramList, readInputOrOkB fd ["f2f." ++ pg.name] p = true) →
      (readForm pg fd errs).res
          = .ok (pg.paramList.all (readOkB fd ["f2f." ++ pg.name]))
      ∧ (∀ p ∈ pg.paramList, ∀ v, widRead fd ["f2f." ++ pg.name] p = .ok v →
          assocLookup p.name (readForm pg fd errs).vals = some v)
      ∧ (∀ p ∈ pg.paramList, ∀ e, widRead fd ["f2f." ++ pg.name] p = .error e →
          assocLookup (itemErrId ["f2f." ++ pg.name] p) (readForm pg fd errs).errs
            = some [e.message]))
    ∧ (∀ pre p post e, pg.paramList = pre ++ p :: post →
        (∀ q ∈ pre, readInputOrOkB fd ["f2f." ++ pg.name] q = true) →
        widRead fd ["f2f." ++ pg.name] p = .error e → e.isInput = false →
        (readForm pg fd errs).res = .error e)
    ∧ ((readForm pg fd errs).res = .ok false →
        ∀ f g fe os, submitHandler pg errs fe os fd f = submitHandler pg errs fe os fd g
          ∧ submitHandler pg errs fe os fd f = ⟨(readForm pg fd errs).errs, fe, os, none⟩)
    ∧ (∀ e, (readForm pg fd errs).res = .error e →
        ∀ f fe os, submitHandler pg errs fe os fd f =
          ⟨(readForm pg fd errs).errs, fe, os, some e⟩) := by
  refine ⟨?_, ?_, ?_, ?_⟩
  · intro hio
    simp only [readForm]
    obtain ⟨h1, h2, h3⟩ :=
      readFormLoop_allInput fd ["f2f." ++ pg.name] pg.paramList errs [] true hE hio hnd1 hnd2
    exact ⟨by rw [h1]; simp, h2, h3⟩
  · intro pre p post e hsplit hio hw hi
    simp only [readForm, hsplit]
    refine readFormLoop_abort fd _ pre p post errs [] true e ?_ hio hw hi
    intro q hq
    refine hE q ?_
    rw [hsplit]
    exact List.mem_append_left _ hq
  · intro h f g fe os
    constructor <;> simp [submitHandler, h]
  · intro e h f fe os
    simp [submitHandler, h]

/-- A two-field group (both required text fields) used to witness C1. -/
def c1Pg : ParamGroup :=
  ⟨"g",
    [⟨"a", .text (TextWidget.make none true Value.null none "text"), "a", none⟩,
     ⟨"b", .text (TextWidget.make none true Value.null none "text"), "b", none⟩],
    none, none⟩

/-- Submitted data for the C1 witness: only field `b` is filled. -/
def c1Fd : FormData := ⟨[("f2f.g.b", "5")]⟩

theorem c1_witness :
    (readForm c1Pg c1Fd (initErrMap c1Pg)).res = .ok false
    ∧ assocLookup "f2f.g.a.errors" (readForm c1Pg c1Fd (initErrMap c1Pg)).errs
        = some ["emtpy value for f2f.g.a"]
    ∧ (∀ f g fe os, submitHandler c1Pg (initErrMap c1Pg) fe os c1Fd f
        = submitHandler c1Pg (initErrMap c1Pg) fe os c1Fd g) := by
  have H := c1_read_localizes_validation_errors c1Pg c1Fd (initErrMap c1Pg)
    (by decide) (by decide) (by decide)
  obtain ⟨h1, h2, h3⟩ := H.1 (by decide)
  have hall : c1Pg.paramList.all (readOkB c1Fd ["f2f." ++ c1Pg.name]) = false := by decide
  rw [hall] at h1
  refine ⟨h1, ?_, fun f g fe os => (H.2.2.1 h1 f g fe os).1⟩
  have he := h3 ⟨"a", .text (TextWidget.make none true Value.null none "text"), "a", none⟩
    (List.mem_cons_self _ _) (mkInputError "emtpy value for f2f.g.a") (by decide)
  have hid : itemErrId ["f2f." ++ c1Pg.name]
      (⟨"a", .text (TextWidget.make none true Value.null none "text"), "a", none⟩ : Param)
      = "f2f.g.a.errors" := by decide
  rw [hid] at he
  exact he

/-- C2 (amended): after a fully successful read, a computation that throws
has its error written into the form's error element (`formErrorElem`) via
`toString` and is then rethrown out of the handler, and the `finally` block
appends a break lane to the output stream whether the computation returned
or threw; a non-`undefined` return value is logged before the break. -/
theorem c2_computation_error_surfacing (pg : ParamGroup) (errs : ErrMap) (fe : String)
    (os : OstreamState) (fd : FormData) (func : Func)
    (h : (readForm pg fd errs).res = .ok true) :
    (∀ os' e, func (readForm pg fd errs).vals os = (os', .error e) →
      submitHandler pg errs fe os fd func =
        ⟨(readForm pg fd errs).errs, jsErrToString e, Ostream.addBreak os', some e⟩)
    ∧ (∀ os' v, func (readForm pg fd errs).vals os = (os', .ok v) →
      submitHandler pg errs fe os fd func =
        ⟨(readForm pg fd errs).errs, fe,
          Ostream.addBreak (if v = Value.undef then os' else Ostream.log os' [v]), none⟩) := by
  constructor
  · intro os' e hf
    simp [submitHandler, h, hf]
  · intro os' v hf
    simp [submitHandler, h, hf]

/-- A one-checkbox group and an always-throwing computation used for C2. -/
def c2Pg : ParamGroup := ⟨"g", [⟨"c", .checkBox ⟨.bool false⟩, "c", none⟩], none, none⟩

def c2FuncBoom : Func := fun _ os => (os, .error (mkError "boom"))

/-- C2 counterexample: at a concrete submission whose computation throws,
the output stream ends up holding a single *empty* break lane — no log line
carrying the error is ever appended to it — while the error text lands in
the form error element; this refutes the claim that the thrown error is
rendered to the output stream as an error-tagged log line. -/
theorem c2_counterexample :
    submitHandler c2Pg (initErrMap c2Pg) "" ⟨[], none⟩ ⟨[]⟩ c2FuncBoom
      = ⟨initErrMap c2Pg, "Error: boom",
         ⟨[⟨"div", false, ["f2f-lane-break"], [], []⟩], some "break"⟩,
         some (mkError "boom")⟩
    ∧ (submitHandler c2Pg (initErrMap c2Pg) "" ⟨[], none⟩ ⟨[]⟩ c2FuncBoom).ostream.lanes.all
        (fun l => l.children.isEmpty) = true := by decide

theorem c2_witness :
    submitHandler c2Pg (initErrMap c2Pg) "w" ⟨[], none⟩ ⟨[]⟩ c2FuncBoom
      = ⟨initErrMap c2Pg, "Error: boom", Ostream.addBreak ⟨[], none⟩, some (mkError "boom")⟩
    ∧ submitHandler c2Pg (initErrMap c2Pg) "w" ⟨[], none⟩ ⟨[]⟩
        (fun _ os => (os, .ok (.num (.num 7))))
      = ⟨initErrMap c2Pg, "w",
         Ostream.addBreak (Ostream.log ⟨[], none⟩ [.num (.num 7)]), none⟩ := by
  constructor
  · have H := (c2_computation_error_surfacing c2Pg (initErrMap c2Pg) "w" ⟨[], none⟩ ⟨[]⟩
      c2FuncBoom (by decide)).1 ⟨[], none⟩ (mkError "boom") rfl
    exact H.trans (by decide)
  · have H := (c2_computation_error_surfacing c2Pg (initErrMap c2Pg) "w" ⟨[], none⟩ ⟨[]⟩
      (fun _ os => (os, .ok (.num (.num 7)))) (by decide)).2 ⟨[], none⟩ (.num (.num 7)) rfl
    exact H.trans (by decide)

/-! ### Lemmas on reconciliation -/

theorem assocLookup_filter_pred {α : Type} (P : String → Bool) (k : String)
    (l : List (String × α)) (hP : P k = false) :
    assocLookup k (l.filter (fun kv => !(P kv.1))) = assocLookup k l := by
  induction l with
  | nil => rfl
  | cons kv l ih =>
      rw [List.filter_cons]
      by_cases hk : kv.1 = k
      · simp [assocLookup, hk, hP]
      · by_cases hPkv : P kv.1 = true <;> simp [assocLookup, hk, hPkv, ih]

theorem assocLookup_filter_out {α : Type} (P : String → Bool) (k : String)
    (l : List (String × α)) (hP : P k = true) :
    assocLookup k (l.filter (fun kv => !(P kv.1))) = none := by
  induction l with
  | nil => rfl
  | cons kv l ih =>
      rw [List.filter_cons]
      by_cases hk : kv.1 = k
      · simp [hk, hP, ih]
      · by_cases hPkv : P kv.1 = true <;> simp [assocLookup, hk, hPkv, ih]

theorem foldl_urlStep_frame (k : String) :
    ∀ (l : List (String × String)) (m : List (String × String)),
      (∀ kv ∈ l, kv.1 ≠ k) →
      assocLookup k (l.foldl urlStep m) = assocLookup k m := by
  intro l
  induction l with
  | nil => intro m _; rfl
  | cons kv l ih =>
      intro m h
      rw [List.foldl_cons, ih _ (fun q hq => h q (List.mem_cons_of_mem _ hq))]
      have hne : k ≠ kv.1 := fun hh => (h kv (List.mem_cons_self kv l)) hh.symm
      by_cases hv : kv.2 = ""
      · simp [urlStep, hv]
      · simp [urlStep, hv, assocLookup_set_ne hne]

theorem foldl_urlStep_mem (k v : String) :
    ∀ (l : List (String × String)) (m : List (String × String)),
      assocLookup k m = none → (l.map Prod.fst).Nodup →
      (assocLookup k (l.foldl urlStep m) = some v ↔ ((k, v) ∈ l ∧ v ≠ "")) := by
  intro l
  induction l with
  | nil =>
      intro m hm _
      simp [hm]
  | cons kv l ih =>
      intro m hm hnd
      have hnd' := (List.nodup_cons.mp hnd).2
      have hknotin := (List.nodup_cons.mp hnd).1
      rw [List.foldl_cons]
      by_cases hk : kv.1 = k
      · have hfr : ∀ q ∈ l, q.1 ≠ k := by
          intro q hq hc
          exact hknotin (hk ▸ hc ▸ List.mem_map_of_mem Prod.fst hq)
        rw [foldl_urlStep_frame k l _ hfr]
        by_cases hv : kv.2 = ""
        · rw [show urlStep m kv = m by simp [urlStep, hv]]
          rw [hm]
          constructor
          · intro hc
            cases hc
          · rintro ⟨hmem, hvne⟩
            rcases List.mem_cons.mp hmem with heq | hmem'
            · refine absurd hv ?_
              have hveq : v = kv.2 := congrArg Prod.snd heq
              rw [← hveq]
              exact hvne
            · exact absurd (List.mem_map_of_mem Prod.fst hmem') (by simp only [Prod.fst]; rw [← hk]; exact hknotin)
        · rw [show urlStep m kv = assocSet kv.1 kv.2 m by simp [urlStep, hv]]
          rw [hk, assocLookup_set_self]
          constructor
          · intro hc
            injection hc with hc
            subst hc
            refine ⟨List.mem_cons.mpr (Or.inl ?_), hv⟩
            rw [← hk]
          · rintro ⟨hmem, hvne⟩
            rcases List.mem_cons.mp hmem with heq | hmem'
            · have hveq : v = kv.2 := congrArg Prod.snd heq
              rw [hveq]
            · exact absurd (List.mem_map_of_mem Prod.fst hmem') (by simp only [Prod.fst]; rw [← hk]; exact hknotin)
      · have hm' : assocLookup k (urlStep m kv) = none := by
          have hne : k ≠ kv.1 := fun hh => hk hh.symm
          by_cases hv : kv.2 = ""
          · simp [urlStep, hv, hm]
          · simp [urlStep, hv, assocLookup_set_ne hne, hm]
        rw [ih _ hm' hnd']
        constructor
        · rintro ⟨hmem, hvne⟩
          exact ⟨List.mem_cons_of_mem _ hmem, hvne⟩
        · rintro ⟨hmem, hvne⟩
          rcases List.mem_cons.mp hmem with heq | hmem'
          · exact absurd (congrArg Prod.fst heq).symm hk
          · exact ⟨hmem', hvne⟩

/-- C3 (amended, modelled from the spec since the URL synchronizer is not in
`src/`): after a submission in which every field reads successfully, the
query string holds exactly those of the form's submitted keys whose raw
values are non-empty, with those values — empty-valued fields are omitted —
while every key outside the form's namespace keeps its previous value; a
submission with a validation failure (or an aborted read) leaves the query
string unchanged. -/
theorem c3_url_update (pg : ParamGroup) (errs : ErrMap) (fd : FormData)
    (url : List (String × String))
    (hks : ∀ kv ∈ fd.entries, strHasPfx ("f2f." ++ pg.name) kv.1 = true)
    (hnd : (fd.entries.map Prod.fst).Nodup) :
    ((readForm pg fd errs).res = .ok true →
      submitUrlAfter pg errs fd url = reconcile url fd ("f2f." ++ pg.name)
      ∧ (∀ k, strHasPfx ("f2f." ++ pg.name) k = false →
          assocLookup k (submitUrlAfter pg errs fd url) = assocLookup k url)
      ∧ (∀ k v, strHasPfx ("f2f." ++ pg.name) k = true →
          (assocLookup k (submitUrlAfter pg errs fd url) = some v ↔
            ((k, v) ∈ fd.entries ∧ v ≠ ""))))
    ∧ ((readForm pg fd errs).res = .ok false → submitUrlAfter pg errs fd url = url)
    ∧ (∀ e, (readForm pg fd errs).res = .error e → submitUrlAfter pg errs fd url = url) := by
  refine ⟨?_, ?_, ?_⟩
  · intro h
    have hEq : submitUrlAfter pg errs fd url = reconcile url fd ("f2f." ++ pg.name) := by
      simp [submitUrlAfter, h]
    refine ⟨hEq, ?_, ?_⟩
    · intro k hk
      rw [hEq]
      simp only [reconcile]
      rw [foldl_urlStep_frame k fd.entries _ ?_]
      · exact assocLookup_filter_pred (strHasPfx ("f2f." ++ pg.name)) k url hk
      · intro kv hkv hc
        have hp := hks kv hkv
        rw [hc] at hp
        rw [hp] at hk
        cases hk
    · intro k v hk
      rw [hEq]
      simp only [reconcile]
      exact foldl_urlStep_mem k v fd.entries _
        (assocLookup_filter_out (strHasPfx ("f2f." ++ pg.name)) k url hk) hnd
  · intro h
    simp [submitUrlAfter, h]
  · intro e h
    simp [submitUrlAfter, h]

/-- A group with a required text field `x` and an optional text field `t`,
and a submission filling `x` and leaving `t` empty, used for C3. -/
def c3Pg : ParamGroup :=
  ⟨"g",
    [⟨"x", .text (TextWidget.make none true Value.null none "text"), "x", none⟩,
     ⟨"t", .text (TextWidget.make none false Value.null none "text"), "t", none⟩],
    none, none⟩

def c3Fd : FormData := ⟨[("f2f.g.x", "5"), ("f2f.g.t", "")]⟩

/-- C3 counterexample: a submission in which every field reads successfully
(the optional `t` is submitted empty and yields its default), yet the
resulting query string does *not* contain the submitted key `f2f.g.t` — so
the address bar does not contain exactly the submitted form's keys with
their submitted raw values, refuting the claim as stated; the unrelated key
is preserved and the non-empty field is recorded. -/
theorem c3_counterexample :
    (readForm c3Pg c3Fd (initErrMap c3Pg)).res = .ok true
    ∧ c3Fd.get "f2f.g.t" = some ""
    ∧ assocLookup "f2f.g.t"
        (submitUrlAfter c3Pg (initErrMap c3Pg) c3Fd [("other", "1")]) = none
    ∧ assocLookup "f2f.g.x"
        (submitUrlAfter c3Pg (initErrMap c3Pg) c3Fd [("other", "1")]) = some "5"
    ∧ assocLookup "other"
        (submitUrlAfter c3Pg (initErrMap c3Pg) c3Fd [("other", "1")]) = some "1" := by decide

theorem c3_witness :
    assocLookup "other" (submitUrlAfter c3Pg (initErrMap c3Pg) c3Fd [("other", "1")])
      = assocLookup "other" [("other", "1")]
    ∧ assocLookup "f2f.g.x" (submitUrlAfter c3Pg (initErrMap c3Pg) c3Fd [("other", "1")])
      = some "5"
    ∧ submitUrlAfter c3Pg (initErrMap c3Pg) ⟨[("f2f.g.t", "7")]⟩ [("other", "1")]
      = [("other", "1")] := by
  have H := c3_url_update c3Pg (initErrMap c3Pg) c3Fd [("other", "1")] (by decide) (by decide)
  obtain ⟨hEq, hout, hin⟩ := H.1 (by decide)
  refine ⟨hout "other" (by decide), ?_, ?_⟩
  · exact (hin "f2f.g.x" "5" (by decide)).mpr ⟨by decide, by decide⟩
  · exact (c3_url_update c3Pg (initErrMap c3Pg) ⟨[("f2f.g.t", "7")]⟩ [("other", "1")]
      (by decide) (by decide)).2.1 (by decide)
